import Mathlib

/-!
Verification of the Elsa crawler core: document-extraction gate, worker crawl
state machine, category partitioning, stats aggregation, category-tree
discovery, orchestrator cleanup and initialization.  Every definition is a
shallow embedding of the corresponding Python function (file and symbol given
in each doc comment).
-/

namespace ElsaCrawler

/-! ## String helpers

The JavaScript snippets evaluated inside frames use `text.includes(pat)` and
`href.includes(pat)`; we model substring containment on character lists. -/

/-- Does the haystack start with the pattern?  (Character-list matching.) -/
def leadsWith : List Char → List Char → Bool
  | _, [] => true
  | [], _ :: _ => false
  | c :: cs, d :: ds => c == d && leadsWith cs ds

/-- Does the haystack contain the pattern as a contiguous substring?
Models JavaScript `String.prototype.includes`. -/
def containsSub : List Char → List Char → Bool
  | [], pat => pat.isEmpty
  | c :: cs, pat => leadsWith (c :: cs) pat || containsSub cs pat

/-- `hasSubstr text pat` models `text.includes(pat)` in the evaluated JS. -/
def hasSubstr (text pat : String) : Bool :=
  containsSub text.toList pat.toList

/-! ## Document extractor
Embeds `src/elsa_crawler/extractors/documents.py` (`DocumentExtractor`). -/

/-- The fixed document-marker phrases checked by
`DocumentExtractor._try_extract_from_frame` (documents.py lines 103-108). -/
def docMarkers : List String :=
  ["Vorgangs-Nr", "Kundenaussage", "Kundenbemerkung", "Lösung", "Datum:", "Fahrzeug"]

/-- `hasDocMarkers text` models the `hasDocMarkers` check of the JS inside
`_try_extract_from_frame`: the text contains at least one marker phrase. -/
def hasDocMarkers (text : String) : Bool :=
  docMarkers.any (fun m => hasSubstr text m)

/-- The navigation-frame exclusion of `_try_extract_from_frame`
(documents.py lines 98-100): text containing all three navigation markers. -/
def isNavigationText (text : String) : Bool :=
  hasSubstr text "Neuheiten" && hasSubstr text "Feldmaßnahmen" && hasSubstr text "Hinweise"

/-- A frame as seen by the extractor: its rendered body text and body HTML
(`document.body.innerText` / `document.body.innerHTML`). -/
structure FrameDoc where
  text : String
  html : String
deriving Repr, DecidableEq

/-- The dict `{text, html, length}` returned by the JS of
`_try_extract_from_frame` on success. -/
structure FrameContent where
  text : String
  html : String
  length : Nat
deriving Repr, DecidableEq

/-- Embedding of `DocumentExtractor._try_extract_from_frame`
(documents.py lines 77-123): reject text shorter than 100 characters, reject
the navigation frame, reject text without any document marker, otherwise
return the content record. -/
def try_extract_from_frame (frame : FrameDoc) : Option FrameContent :=
  let text := frame.text
  if text.length < 100 then none
  else if isNavigationText text then none
  else if !hasDocMarkers text then none
  else some ⟨text, frame.html, text.length⟩

/-- Embedding of the `ExtractedDocument` pydantic model (models.py) restricted
to the fields the extractor populates; `html_preview` is the
`metadata["html_preview"]` entry (first 1000 characters of the html). -/
structure ExtractedDocument where
  category_id : String
  category_name : String
  vorgangs_nr : String
  title : String
  content : String
  url : String
  extraction_method : String
  html_preview : String
deriving Repr, DecidableEq

/-- Builds the `ExtractedDocument` exactly as `extract_document_content` does
at documents.py lines 41-50 and 63-72. -/
def mkExtractedDocument (category_id category_name vorgangs_nr url method : String)
    (c : FrameContent) : ExtractedDocument :=
  { category_id := category_id
    category_name := category_name
    vorgangs_nr := vorgangs_nr
    title := vorgangs_nr
    content := c.text
    url := url
    extraction_method := method
    html_preview := String.mk (c.html.toList.take 1000) }

/-- One step of the fallback scan of `extract_document_content`
(documents.py lines 56-60): keep the content with the strictly largest
length seen so far. -/
def bestStep (acc : Option FrameContent × Nat) (frame : FrameDoc) :
    Option FrameContent × Nat :=
  match try_extract_from_frame frame with
  | some c => if acc.2 < c.length then (some c, c.length) else acc
  | none => acc

/-- The fallback scan over all open frames (documents.py lines 52-60). -/
def bestFrameContent (frames : List FrameDoc) : Option FrameContent :=
  (frames.foldl bestStep ((none : Option FrameContent), 0)).1

/-- Embedding of `DocumentExtractor.extract_document_content`
(documents.py lines 16-74): try the cached document frame first; on failure
scan all page frames for the longest valid content; return `none` when no
frame yields valid content. -/
def extract_document_content (pageFrames : List FrameDoc)
    (document_frame : Option FrameDoc)
    (vorgangs_nr category_id category_name page_url : String) :
    Option ExtractedDocument :=
  let fromHint : Option FrameContent :=
    match document_frame with
    | some f => try_extract_from_frame f
    | none => none
  match fromHint with
  | some c =>
      some (mkExtractedDocument category_id category_name vorgangs_nr page_url "new" c)
  | none =>
      match bestFrameContent pageFrames with
      | some c =>
          some (mkExtractedDocument category_id category_name vorgangs_nr page_url "fallback" c)
      | none => none

/-- The gate every accepted content record satisfies: at least 100 characters
and at least one document-marker phrase. -/
def gateContent (c : FrameContent) : Prop :=
  100 ≤ c.text.length ∧ hasDocMarkers c.text = true

theorem try_extract_some_gate {frame : FrameDoc} {c : FrameContent}
    (h : try_extract_from_frame frame = some c) :
    gateContent c ∧ isNavigationText c.text = false := by
  unfold try_extract_from_frame at h
  simp only at h
  split at h
  · exact absurd h (by simp)
  · split at h
    · exact absurd h (by simp)
    · split at h
      · exact absurd h (by simp)
      · rename_i hlen hnav hmark
        cases h
        refine ⟨⟨?_, ?_⟩, ?_⟩
        · show 100 ≤ frame.text.length
          omega
        · simpa using hmark
        · simpa using hnav

theorem try_extract_none_of_short {frame : FrameDoc}
    (h : frame.text.length < 100) : try_extract_from_frame frame = none := by
  unfold try_extract_from_frame
  simp [h]

theorem bestStep_gate {acc : Option FrameContent × Nat} {frame : FrameDoc}
    (h : ∀ c, acc.1 = some c → gateContent c) :
    ∀ c, (bestStep acc frame).1 = some c → gateContent c := by
  intro c hc
  unfold bestStep at hc
  split at hc
  · rename_i c' hext
    split at hc
    · simp only at hc
      cases hc
      exact (try_extract_some_gate hext).1
    · exact h c hc
  · exact h c hc

theorem bestFold_gate (frames : List FrameDoc) :
    ∀ (acc : Option FrameContent × Nat), (∀ c, acc.1 = some c → gateContent c) →
    ∀ c, (frames.foldl bestStep acc).1 = some c → gateContent c := by
  induction frames with
  | nil => intro acc h c hc; exact h c hc
  | cons f fs ih =>
      intro acc h c hc
      exact ih (bestStep acc f) (bestStep_gate h) c hc

theorem bestFrameContent_gate {frames : List FrameDoc} {c : FrameContent}
    (h : bestFrameContent frames = some c) : gateContent c := by
  exact bestFold_gate frames (none, 0) (by intro c hc; cases hc) c h

theorem bestStep_none {acc : Option FrameContent × Nat} {frame : FrameDoc}
    (h : try_extract_from_frame frame = none) : bestStep acc frame = acc := by
  unfold bestStep
  simp [h]

theorem bestFrameContent_none {frames : List FrameDoc}
    (h : ∀ f ∈ frames, try_extract_from_frame f = none) :
    bestFrameContent frames = none := by
  unfold bestFrameContent
  have : ∀ acc : Option FrameContent × Nat,
      frames.foldl bestStep acc = acc := by
    induction frames with
    | nil => intro acc; rfl
    | cons f fs ih =>
        intro acc
        rw [List.foldl_cons, bestStep_none (h f (by simp))]
        exact ih (fun g hg => h g (by simp [hg])) acc
  rw [this (none, 0)]

theorem try_extract_isSome_iff (frame : FrameDoc) :
    (try_extract_from_frame frame).isSome = true ↔
      (100 ≤ frame.text.length ∧ hasDocMarkers frame.text = true ∧
       isNavigationText frame.text = false) := by
  unfold try_extract_from_frame
  simp only
  split_ifs with h1 h2 h3
  · simp only [Option.isSome_none, Bool.false_eq_true, false_iff, not_and]
    intro hlen
    omega
  · simp [h2]
  · simp only [Bool.not_eq_true'] at h3
    simp [h3]
  · simp only [Bool.not_eq_true', Bool.not_eq_false] at h3
    simp only [Option.isSome_some, true_iff]
    refine ⟨by omega, h3, by simpa using h2⟩

theorem extract_some_gate {frames : List FrameDoc} {hint : Option FrameDoc}
    {vnr cid cname url : String} {doc : ExtractedDocument}
    (h : extract_document_content frames hint vnr cid cname url = some doc) :
    100 ≤ doc.content.length ∧ hasDocMarkers doc.content = true := by
  unfold extract_document_content at h
  cases hint with
  | none =>
      simp only at h
      cases hbest : bestFrameContent frames with
      | none => rw [hbest] at h; exact absurd h (by simp)
      | some c =>
          rw [hbest] at h
          simp only [Option.some.injEq] at h
          subst h
          exact bestFrameContent_gate hbest
  | some f =>
      simp only at h
      cases hext : try_extract_from_frame f with
      | none =>
          rw [hext] at h
          cases hbest : bestFrameContent frames with
          | none => rw [hbest] at h; exact absurd h (by simp)
          | some c =>
              rw [hbest] at h
              simp only [Option.some.injEq] at h
              subst h
              exact bestFrameContent_gate hbest
      | some c =>
          rw [hext] at h
          simp only [Option.some.injEq] at h
          subst h
          exact (try_extract_some_gate hext).1

/-- A candidate frame text of length at least 100 that contains a document
marker (`Datum:`) but also the full navigation signature
(`Neuheiten`, `Feldmaßnahmen`, `Hinweise`). -/
def navTrapText : String :=
  "Neuheiten Feldmaßnahmen Hinweise Datum: aaaaaaaaaaaaaaaaaaaaaaaaaaaaaaaaaaaaaaaaaaaaaaaaaaaaaaaaaaaaaaaaaaaaaa"

/-- **C1** counterexample: the claim's acceptance condition
(`len(T) >= 100` and a marker phrase) holds for `navTrapText`, yet
`_try_extract_from_frame` rejects it (navigation-signature exclusion) and
`extract_document_content` returns `None` even when this is the only frame.
So "accepts T iff `len(T) >= 100` and T contains a marker phrase" is false. -/
theorem document_gate_counterexample :
    100 ≤ navTrapText.length ∧ hasDocMarkers navTrapText = true ∧
    try_extract_from_frame ⟨navTrapText, ""⟩ = none ∧
    extract_document_content [⟨navTrapText, ""⟩] (some ⟨navTrapText, ""⟩)
      "1/1" "cat" "Cat" "url" = none := by
  decide

/-- **C1** (amended): a candidate frame text T is accepted iff
`len(T) >= 100`, T contains at least one document-marker phrase, and T does
not match the navigation-frame signature (all three of `Neuheiten`,
`Feldmaßnahmen`, `Hinweise`); consequently no `ExtractedDocument` returned by
`extract_document_content` has content shorter than 100 characters or lacking
every marker phrase, and when no frame yields valid content the result is
`none` rather than an error. -/
theorem document_validity_gate :
    (∀ frame : FrameDoc,
        (try_extract_from_frame frame).isSome = true ↔
          (100 ≤ frame.text.length ∧ hasDocMarkers frame.text = true ∧
           isNavigationText frame.text = false)) ∧
    (∀ (frames : List FrameDoc) (hint : Option FrameDoc)
        (vnr cid cname url : String) (doc : ExtractedDocument),
        extract_document_content frames hint vnr cid cname url = some doc →
        100 ≤ doc.content.length ∧ hasDocMarkers doc.content = true) ∧
    (∀ (frames : List FrameDoc) (hint : Option FrameDoc)
        (vnr cid cname url : String),
        (∀ f, hint = some f → try_extract_from_frame f = none) →
        (∀ f ∈ frames, try_extract_from_frame f = none) →
        extract_document_content frames hint vnr cid cname url = none) := by
  refine ⟨try_extract_isSome_iff,
    fun _ _ _ _ _ _ _ h => extract_some_gate h, ?_⟩
  intro frames hint vnr cid cname url hhint hframes
  unfold extract_document_content
  cases hint with
  | none =>
      simp only
      rw [bestFrameContent_none hframes]
  | some f =>
      simp only
      rw [hhint f rfl, bestFrameContent_none hframes]

/-- Witness for C1: concrete invocation with one too-short frame; the
hypotheses of the third conjunct are discharged at this input and the result
is `none`. -/
theorem document_validity_gate_witness :
    extract_document_content [⟨"short", ""⟩] none "1/1" "cat" "Cat" "url" = none :=
  document_validity_gate.2.2 [⟨"short", ""⟩] none "1/1" "cat" "Cat" "url"
    (fun f hf => by cases hf) (by decide)

/-! ## Worker crawl state machine
Embeds `src/elsa_crawler/crawler/worker.py` (`CrawlerWorker.crawl_category`,
`_extract_documents_from_content`) and the per-worker task loop of
`src/elsa_crawler/crawler/orchestrator.py` (`_worker_crawl_task`). -/

/-- Embedding of the `Category` pydantic model (models.py lines 194-202). -/
structure Category where
  id : String
  name : String
  url : Option String
  parent_id : Option String
  depth : Nat
  has_children : Bool
deriving Repr, DecidableEq

/-- Embedding of `CrawlerStats` (models.py lines 155-162), counters only. -/
structure CrawlerStats where
  categories_crawled : Nat
  documents_extracted : Nat
  errors : Nat
deriving Repr, DecidableEq

/-- A fresh `CrawlerStats()`. -/
def CrawlerStats.init : CrawlerStats :=
  ⟨0, 0, 0⟩

/-- The worker state mutated by the crawl loop (worker.py lines 46-48):
statistics and the two dedup sets (modelled as lists of recorded ids). -/
structure WorkerState where
  stats : CrawlerStats
  visited_categories : List String
  visited_documents : List String
deriving Repr, DecidableEq

/-- The state of a freshly constructed worker. -/
def WorkerState.init : WorkerState :=
  ⟨CrawlerStats.init, [], []⟩

/-- The deterministic responses of the UI-automation surface during a crawl.
`clickCategory c = false` covers both a `false` return of the evaluated JS
and a raised exception, since `_click_category` catches every exception and
returns `False` (worker.py lines 310-312).  Similarly `clickDocument` models
`_click_document_link` and `extractSucceeds` models whether
`extract_document_content` yields a document for a row. -/
structure CrawlEnv where
  clickCategory : Category → Bool
  contentFrameFound : Category → Bool
  docList : Category → List String
  clickDocument : String → Bool
  extractSucceeds : String → Bool
  subcategories : Category → List Category
  maxDocs : Nat

/-- One iteration of the document-row loop of
`_extract_documents_from_content` (worker.py lines 486-517): skip rows whose
`vorgangs_nr` was already visited, mark visited, click the document link
(failure skips the row), extract, and on success bump
`documents_extracted` and the local count. -/
def processDoc (env : CrawlEnv) (st : WorkerState) (count : Nat) (vnr : String) :
    WorkerState × Nat :=
  if vnr ∈ st.visited_documents then (st, count)
  else
    let st1 := { st with visited_documents := vnr :: st.visited_documents }
    if ¬ env.clickDocument vnr then (st1, count)
    else if env.extractSucceeds vnr then
      ({ st1 with stats :=
          { st1.stats with documents_extracted := st1.stats.documents_extracted + 1 } },
        count + 1)
    else (st1, count)

/-- Embedding of `CrawlerWorker._extract_documents_from_content`
(worker.py lines 462-523): iterate over the first `max_documents_per_category`
rows of the rendered listing. -/
def extract_documents_from_content (env : CrawlEnv) (st : WorkerState)
    (c : Category) : WorkerState × Nat :=
  ((env.docList c).take env.maxDocs).foldl
    (fun acc v => processDoc env acc.1 acc.2 v) (st, 0)

/-- The `for subcat in subcategories` loop of `crawl_category`
(worker.py lines 271-273): run the given per-category crawl on each
subcategory in order, threading the state and accumulating the
extracted-document count. -/
def crawl_subcats_with (f : WorkerState → Category → WorkerState × Nat) :
    WorkerState → List Category → WorkerState × Nat
  | st, [] => (st, 0)
  | st, sub :: rest =>
    let r := f st sub
    let rs := crawl_subcats_with f r.1 rest
    (rs.1, r.2 + rs.2)

/-- Embedding of `CrawlerWorker.crawl_category` (worker.py lines 231-279),
with a fuel bound making the recursion total (any finite tree is crawled
exactly as by the source for large enough fuel): return 0 for an
already-visited id; otherwise mark visited, activate the category (failure
returns 0), refresh the content frame (absence returns 0), extract documents,
recurse into the visible subcategories, and finally increment
`categories_crawled` once. -/
def crawl_category (env : CrawlEnv) : Nat → WorkerState → Category → WorkerState × Nat
  | 0, st, _ => (st, 0)
  | fuel + 1, st, c =>
    if c.id ∈ st.visited_categories then (st, 0)
    else
      let st1 := { st with visited_categories := c.id :: st.visited_categories }
      if ¬ env.clickCategory c then (st1, 0)
      else if ¬ env.contentFrameFound c then (st1, 0)
      else
        let rdocs := extract_documents_from_content env st1 c
        let rsub := crawl_subcats_with (crawl_category env fuel) rdocs.1
          (env.subcategories c)
        ({ rsub.1 with stats :=
            { rsub.1.stats with categories_crawled := rsub.1.stats.categories_crawled + 1 } },
          rdocs.2 + rsub.2)

/-- Embedding of `CrawlerOrchestrator._worker_crawl_task`
(orchestrator.py lines 179-190): crawl the assigned categories in order.  The
`except` branch (the only place `stats.errors` is incremented) fires only
when `crawl_category` raises, which the pure model never does; in particular
a failed category click is a normal `False` return, not an exception. -/
def worker_crawl_task (env : CrawlEnv) (fuel : Nat) (st : WorkerState)
    (cats : List Category) : WorkerState :=
  cats.foldl (fun s c => (crawl_category env fuel s c).1) st

theorem processDoc_visited_cats (env : CrawlEnv) (st : WorkerState) (count : Nat)
    (v : String) :
    (processDoc env st count v).1.visited_categories = st.visited_categories := by
  unfold processDoc
  split_ifs <;> rfl

theorem extract_documents_visited_cats (env : CrawlEnv) (st : WorkerState)
    (c : Category) :
    (extract_documents_from_content env st c).1.visited_categories
      = st.visited_categories := by
  unfold extract_documents_from_content
  generalize ((env.docList c).take env.maxDocs) = l
  suffices h : ∀ acc : WorkerState × Nat,
      (l.foldl (fun a v => processDoc env a.1 a.2 v) acc).1.visited_categories
        = acc.1.visited_categories by
    exact h (st, 0)
  induction l with
  | nil => intro acc; rfl
  | cons v vs ih =>
      intro acc
      rw [List.foldl_cons]
      exact (ih _).trans (processDoc_visited_cats env acc.1 acc.2 v)

theorem crawl_subcats_with_visited_mono
    (f : WorkerState → Category → WorkerState × Nat)
    (hf : ∀ st c, st.visited_categories ⊆ (f st c).1.visited_categories) :
    ∀ (l : List Category) (st : WorkerState),
      st.visited_categories ⊆ (crawl_subcats_with f st l).1.visited_categories := by
  intro l
  induction l with
  | nil => intro st; exact fun x hx => hx
  | cons s ls ih =>
      intro st x hx
      simp only [crawl_subcats_with]
      exact ih _ (hf st s hx)

theorem crawl_visited_mono (env : CrawlEnv) : ∀ (fuel : Nat) (st : WorkerState)
    (c : Category),
    st.visited_categories ⊆ (crawl_category env fuel st c).1.visited_categories := by
  intro fuel
  induction fuel with
  | zero => intro st c; exact fun x hx => hx
  | succ n ihn =>
      intro st c x hx
      simp only [crawl_category]
      split_ifs with h1 h2 h3 <;>
        first
          | exact hx
          | exact List.mem_cons_of_mem _ hx
          | · show x ∈ (crawl_subcats_with (crawl_category env n)
                (extract_documents_from_content env
                  { st with visited_categories := c.id :: st.visited_categories } c).1
                (env.subcategories c)).1.visited_categories
              refine crawl_subcats_with_visited_mono _ ihn _ _ ?_
              rw [extract_documents_visited_cats]
              exact List.mem_cons_of_mem _ hx

theorem crawl_category_visited_noop (env : CrawlEnv) (fuel : Nat)
    (st : WorkerState) (c : Category) (hfuel : 1 ≤ fuel)
    (hvis : c.id ∈ st.visited_categories) :
    crawl_category env fuel st c = (st, 0) := by
  obtain ⟨m, rfl⟩ : ∃ m, fuel = m + 1 := ⟨fuel - 1, by omega⟩
  simp [crawl_category, hvis]

theorem crawl_category_marks (env : CrawlEnv) (fuel : Nat) (st : WorkerState)
    (c : Category) (hfuel : 1 ≤ fuel) :
    c.id ∈ (crawl_category env fuel st c).1.visited_categories := by
  obtain ⟨m, rfl⟩ : ∃ m, fuel = m + 1 := ⟨fuel - 1, by omega⟩
  by_cases hvis : c.id ∈ st.visited_categories
  · simp [crawl_category, hvis]
  · simp only [crawl_category, if_neg hvis]
    split_ifs with h2 h3 <;>
      first
        | exact List.mem_cons_self _ _
        | · show c.id ∈ (crawl_subcats_with (crawl_category env m)
              (extract_documents_from_content env
                { st with visited_categories := c.id :: st.visited_categories } c).1
              (env.subcategories c)).1.visited_categories
            refine crawl_subcats_with_visited_mono _ (crawl_visited_mono env m) _ _ ?_
            rw [extract_documents_visited_cats]
            exact List.mem_cons_self _ _

/-- **C3**: for every category `c` and every worker, the category id is
recorded in the worker's visited set by the first `crawl_category` call; any
call on a state whose visited set already holds the id is a no-op returning 0
(no state change at all, hence no navigation, extraction, recursion or
counter update); in particular the second of two consecutive calls on the
same worker is a no-op returning 0. -/
theorem crawl_category_idempotent (env : CrawlEnv) (fuel : Nat)
    (st : WorkerState) (c : Category) (hfuel : 1 ≤ fuel) :
    c.id ∈ (crawl_category env fuel st c).1.visited_categories ∧
    (∀ st' : WorkerState, c.id ∈ st'.visited_categories →
        crawl_category env fuel st' c = (st', 0)) ∧
    crawl_category env fuel (crawl_category env fuel st c).1 c
      = ((crawl_category env fuel st c).1, 0) :=
  ⟨crawl_category_marks env fuel st c hfuel,
   fun st' h => crawl_category_visited_noop env fuel st' c hfuel h,
   crawl_category_visited_noop env fuel _ c hfuel
     (crawl_category_marks env fuel st c hfuel)⟩

/-- An environment where every UI interaction succeeds and every category has
one document row and no subcategories. -/
def plainEnv : CrawlEnv :=
  { clickCategory := fun _ => true
    contentFrameFound := fun _ => true
    docList := fun _ => ["101/22"]
    clickDocument := fun _ => true
    extractSucceeds := fun _ => true
    subcategories := fun _ => []
    maxDocs := 50 }

/-- A sample category. -/
def sampleCat : Category :=
  ⟨"D.064.01", "Bremsanlage", some "vw.portal?levelCode=D.064.01", none, 1, false⟩

/-- Witness for C3: the second consecutive call on the same worker at a
concrete category and environment is a no-op returning 0. -/
theorem crawl_category_idempotent_witness :
    crawl_category plainEnv 3
        (crawl_category plainEnv 3 WorkerState.init sampleCat).1 sampleCat
      = ((crawl_category plainEnv 3 WorkerState.init sampleCat).1, 0) :=
  (crawl_category_idempotent plainEnv 3 WorkerState.init sampleCat (by decide)).2.2

theorem crawl_category_click_fail (env : CrawlEnv) (fuel : Nat) (st : WorkerState)
    (c : Category) (hfuel : 1 ≤ fuel) (hvis : c.id ∉ st.visited_categories)
    (hclick : env.clickCategory c = false) :
    crawl_category env fuel st c =
      ({ st with visited_categories := c.id :: st.visited_categories }, 0) := by
  obtain ⟨m, rfl⟩ : ∃ m, fuel = m + 1 := ⟨fuel - 1, by omega⟩
  simp [crawl_category, hvis, hclick]

/-- A category whose activation click fails in `clickFailEnv`. -/
def failCat : Category :=
  ⟨"F.001", "Karosserie", some "vw.portal?levelCode=F.001", none, 0, false⟩

/-- A sibling category whose activation click succeeds in `clickFailEnv`. -/
def okCat : Category :=
  ⟨"G.002", "Elektrische Anlage", some "vw.portal?levelCode=G.002", none, 0, false⟩

/-- An environment in which exactly the category with id `F.001` fails to
activate; everything else succeeds and yields one document row. -/
def clickFailEnv : CrawlEnv :=
  { clickCategory := fun c => !(c.id == "F.001")
    contentFrameFound := fun _ => true
    docList := fun _ => ["55/11"]
    clickDocument := fun _ => true
    extractSucceeds := fun _ => true
    subcategories := fun _ => []
    maxDocs := 50 }

/-- **C2** counterexample: with the activation click of `failCat` failing,
`crawl_category` returns 0 but the worker's `errors` counter stays at 0 — it
is not incremented by 1 as the claim states (`_click_category` catches its own
exceptions and returns `False`, and `stats.errors` is only bumped by the
`except` branch of `_worker_crawl_task`, which a `False` return never
reaches).  The sibling category is still processed. -/
theorem category_click_failure_counterexample :
    clickFailEnv.clickCategory failCat = false ∧
    crawl_category clickFailEnv 3 WorkerState.init failCat
      = (⟨CrawlerStats.init, ["F.001"], []⟩, 0) ∧
    ¬ (worker_crawl_task clickFailEnv 3 WorkerState.init [failCat, okCat]).stats.errors = 1 ∧
    (worker_crawl_task clickFailEnv 3 WorkerState.init [failCat, okCat]).stats.errors = 0 ∧
    (worker_crawl_task clickFailEnv 3 WorkerState.init [failCat, okCat]).stats.categories_crawled = 1 ∧
    okCat.id ∈ (worker_crawl_task clickFailEnv 3 WorkerState.init [failCat, okCat]).visited_categories := by
  decide

/-- **C2** (amended): for every category `c` whose activation click fails
(the navigation-frame click returns `false` or raises — both surface as a
`False` return of `_click_category`), `crawl_category c` returns 0 and leaves
every counter unchanged — in particular the `errors` counter is NOT
incremented (it is only incremented when `crawl_category` raises, which a
failed click does not cause) — and sibling categories in the worker's
assigned list are still processed afterwards. -/
theorem category_click_failure (env : CrawlEnv) (fuel : Nat) (st : WorkerState)
    (c : Category) (rest : List Category) (hfuel : 1 ≤ fuel)
    (hvis : c.id ∉ st.visited_categories)
    (hclick : env.clickCategory c = false) :
    (crawl_category env fuel st c).2 = 0 ∧
    (crawl_category env fuel st c).1.stats = st.stats ∧
    (crawl_category env fuel st c).1.stats.errors = st.stats.errors ∧
    worker_crawl_task env fuel st (c :: rest)
      = worker_crawl_task env fuel
          { st with visited_categories := c.id :: st.visited_categories } rest := by
  have h := crawl_category_click_fail env fuel st c hfuel hvis hclick
  refine ⟨by rw [h], by rw [h], by rw [h], ?_⟩
  unfold worker_crawl_task
  rw [List.foldl_cons, h]

/-- Witness for C2 (amended): the concrete failing click leaves the stats of
the initial state untouched and returns 0. -/
theorem category_click_failure_witness :
    (crawl_category clickFailEnv 3 WorkerState.init failCat).2 = 0 ∧
    (crawl_category clickFailEnv 3 WorkerState.init failCat).1.stats
      = WorkerState.init.stats ∧
    (crawl_category clickFailEnv 3 WorkerState.init failCat).1.stats.errors
      = WorkerState.init.stats.errors ∧
    worker_crawl_task clickFailEnv 3 WorkerState.init [failCat, okCat]
      = worker_crawl_task clickFailEnv 3
          { WorkerState.init with visited_categories := [failCat.id] } [okCat] :=
  category_click_failure clickFailEnv 3 WorkerState.init failCat [okCat]
    (by decide) (by decide) (by decide)

/-- The category tree of the C6 scenario: `A` with children `A1`, `A2`, and
`B` with no children. -/
def catA : Category := ⟨"A", "A", some "vw.portal?levelCode=A", none, 0, true⟩

/-- Child `A1` of `A`. -/
def catA1 : Category := ⟨"A1", "A1", some "vw.portal?levelCode=A1", some "A", 1, false⟩

/-- Child `A2` of `A`. -/
def catA2 : Category := ⟨"A2", "A2", some "vw.portal?levelCode=A2", some "A", 1, false⟩

/-- Top-level category `B` with no children. -/
def catB : Category := ⟨"B", "B", some "vw.portal?levelCode=B", none, 0, false⟩

/-- The C6 scenario environment: every activation, content-frame refresh,
document click and extraction succeeds, every category's listing shows
exactly one (distinct) document row, and `A` exposes `A1`, `A2` as visible
subcategories after activation. -/
def scenarioEnv : CrawlEnv :=
  { clickCategory := fun _ => true
    contentFrameFound := fun _ => true
    docList := fun c =>
      if c.id = "A" then ["1/1"]
      else if c.id = "A1" then ["2/1"]
      else if c.id = "A2" then ["3/1"]
      else if c.id = "B" then ["4/1"]
      else []
    clickDocument := fun _ => true
    extractSucceeds := fun _ => true
    subcategories := fun c => if c.id = "A" then [catA1, catA2] else []
    maxDocs := 50 }

/-- **C6** counterexample: in the scenario
`[A(children=[A1,A2]), B(children=[])]` with one worker and one document per
category, the code crawls four categories (`A`, `A1`, `A2`, `B`) and extracts
four documents — the claimed final stats `categories_crawled=3,
documents_extracted=3` are wrong (`A` itself is counted and yields a
document too). -/
theorem scenario_stats_counterexample :
    (worker_crawl_task scenarioEnv 5 WorkerState.init [catA, catB]).stats
      = ⟨4, 4, 0⟩ ∧
    ¬ (worker_crawl_task scenarioEnv 5 WorkerState.init [catA, catB]).stats.categories_crawled = 3 ∧
    ¬ (worker_crawl_task scenarioEnv 5 WorkerState.init [catA, catB]).stats.documents_extracted = 3 := by
  decide

/-- **C6** (amended): for the category tree `[A(children=[A1,A2]),
B(children=[])]` crawled by one worker where every category activation,
content-frame refresh, and document extraction succeeds and each category
yields exactly one document, the final stats are `categories_crawled=4`,
`documents_extracted=4`, `errors=0` (the four crawled categories are `A`,
`A1`, `A2`, `B`); `categories_crawled` is incremented exactly once per
crawled category — it equals the number of recorded visited categories —
regardless of how many documents or subcategories each contained. -/
theorem scenario_stats :
    worker_crawl_task scenarioEnv 5 WorkerState.init [catA, catB]
      = ⟨⟨4, 4, 0⟩, ["B", "A2", "A1", "A"], ["4/1", "3/1", "2/1", "1/1"]⟩ ∧
    (worker_crawl_task scenarioEnv 5 WorkerState.init [catA, catB]).stats.categories_crawled
      = (worker_crawl_task scenarioEnv 5 WorkerState.init [catA, catB]).visited_categories.length := by
  decide

/-! ## Category partitioning and stats aggregation
Embeds `CrawlerOrchestrator._distribute_categories` and
`CrawlerOrchestrator._get_summary` (orchestrator.py). -/

/-- Embedding of `CrawlerOrchestrator._distribute_categories`
(orchestrator.py lines 169-177): start from `n` empty chunks and append
category `i` to chunk `i % n` (`chunks[worker_idx].append(category)`). -/
def distribute_categories (cats : List Category) (n : Nat) : List (List Category) :=
  cats.enum.foldl
    (fun chunks ic => chunks.set (ic.1 % n) (chunks.getD (ic.1 % n) [] ++ [ic.2]))
    (List.replicate n [])

/-- The categories of the enumerated list whose index is `≡ w (mod n)`,
in order: the intended content of chunk `w`. -/
def pairChunk (l : List (Nat × Category)) (n w : Nat) : List Category :=
  (l.filter (fun ic => ic.1 % n == w)).map Prod.snd

theorem eq_range_map_getD (chunks : List (List Category)) :
    chunks = (List.range chunks.length).map (fun w => chunks.getD w []) := by
  apply List.ext_getElem
  · simp
  · intro i h1 h2
    simp only [List.getElem_map, List.getElem_range, List.getD_eq_getElem?_getD]
    rw [List.getElem?_eq_getElem h1]
    rfl

theorem distFold_eq (n : Nat) (hn : 0 < n) :
    ∀ (l : List (Nat × Category)) (chunks : List (List Category)),
      chunks.length = n →
      l.foldl
        (fun ch ic => ch.set (ic.1 % n) (ch.getD (ic.1 % n) [] ++ [ic.2]))
        chunks
        = (List.range n).map (fun w => chunks.getD w [] ++ pairChunk l n w) := by
  intro l
  induction l with
  | nil =>
      intro chunks hlen
      simp only [List.foldl_nil, pairChunk, List.filter_nil, List.map_nil,
        List.append_nil]
      rw [← hlen]
      exact eq_range_map_getD chunks
  | cons ic l ih =>
      intro chunks hlen
      rw [List.foldl_cons, ih _ (by rw [List.length_set]; exact hlen)]
      apply List.map_congr_left
      intro w hw
      rw [List.mem_range] at hw
      by_cases hwi : ic.1 % n = w
      · subst hwi
        have hlt : ic.1 % n < chunks.length := by
          rw [hlen]; exact Nat.mod_lt _ hn
        rw [List.getD_eq_getElem?_getD, List.getElem?_set_self hlt]
        simp only [Option.getD_some, pairChunk, List.filter_cons, beq_self_eq_true,
          if_pos, List.map_cons]
        rw [List.append_assoc, List.singleton_append]
      · rw [List.getD_eq_getElem?_getD, List.getElem?_set_ne hwi,
          ← List.getD_eq_getElem?_getD]
        simp only [pairChunk, List.filter_cons]
        rw [if_neg (by simpa using hwi)]

theorem distribute_categories_eq (cats : List Category) (n : Nat) (hn : 0 < n) :
    distribute_categories cats n
      = (List.range n).map (fun w => pairChunk cats.enum n w) := by
  unfold distribute_categories
  rw [distFold_eq n hn cats.enum (List.replicate n []) (by simp)]
  apply List.map_congr_left
  intro w hw
  rw [List.mem_range] at hw
  rw [List.getD_eq_getElem?_getD, List.getElem?_replicate]
  simp [hw]

theorem range_map_zero_sum (n j k : Nat) (hj : n ≤ j) :
    ((List.range n).map (fun w => if j = w then k else 0)).sum = 0 := by
  induction n with
  | zero => rfl
  | succ m ih =>
      rw [List.range_succ, List.map_append, List.sum_append]
      rw [ih (by omega)]
      simp only [List.map_cons, List.map_nil, List.sum_cons, List.sum_nil]
      rw [if_neg (by omega)]
      omega

theorem range_map_onehot_sum (n j k : Nat) (hj : j < n) :
    ((List.range n).map (fun w => if j = w then k else 0)).sum = k := by
  induction n with
  | zero => omega
  | succ m ih =>
      rw [List.range_succ, List.map_append, List.sum_append]
      by_cases hjm : j = m
      · subst hjm
        rw [range_map_zero_sum _ _ _ (Nat.le_refl j)]
        simp
      · rw [ih (by omega)]
        simp [hjm]

theorem map_add_sum_split (l : List Nat) (f g : Nat → Nat) :
    (l.map (fun x => f x + g x)).sum = (l.map f).sum + (l.map g).sum := by
  induction l with
  | nil => rfl
  | cons x xs ih =>
      simp only [List.map_cons, List.sum_cons, ih]
      omega

theorem pairChunk_count_sum (n : Nat) (hn : 0 < n) (c : Category)
    (l : List (Nat × Category)) :
    ((List.range n).map (fun w => (pairChunk l n w).count c)).sum
      = (l.map Prod.snd).count c := by
  induction l with
  | nil => simp [pairChunk]
  | cons ic l ih =>
      have hstep : ∀ w, (pairChunk (ic :: l) n w).count c
          = (pairChunk l n w).count c
            + (if ic.1 % n = w then (if ic.2 == c then 1 else 0) else 0) := by
        intro w
        simp only [pairChunk, List.filter_cons]
        by_cases h : ic.1 % n = w
        · rw [if_pos (by simpa using h), if_pos h]
          simp [List.count_cons]
        · rw [if_neg (by simpa using h), if_neg h]
          omega
      simp only [hstep]
      rw [map_add_sum_split, ih,
        range_map_onehot_sum n (ic.1 % n) _ (Nat.mod_lt _ hn)]
      simp [List.count_cons]

theorem mem_pairChunk {l : List (Nat × Category)} {n w : Nat} {c : Category} :
    c ∈ pairChunk l n w ↔ ∃ i, (i, c) ∈ l ∧ i % n = w := by
  simp only [pairChunk, List.mem_map, List.mem_filter]
  constructor
  · rintro ⟨⟨i, c'⟩, ⟨hmem, hmod⟩, rfl⟩
    exact ⟨i, hmem, by simpa using hmod⟩
  · rintro ⟨i, hmem, hmod⟩
    exact ⟨(i, c), ⟨hmem, by simpa using hmod⟩, rfl⟩

/-- The five top-level categories of the C4 scenario. -/
def fiveCats : List Category :=
  [⟨"C1", "Motor", none, none, 0, false⟩,
   ⟨"C2", "Getriebe", none, none, 0, false⟩,
   ⟨"C3", "Fahrwerk", none, none, 0, false⟩,
   ⟨"C4", "Karosserie", none, none, 0, false⟩,
   ⟨"C5", "Elektrik", none, none, 0, false⟩]

/-- **C4**: for every list of top-level categories `S` and worker count
`n ≥ 1`, the round-robin partition has `n` chunks; summed over the chunks,
every category occurs exactly as often as in `S` (so the union of the chunks
equals `S` and every category of `S` is assigned exactly once); for
duplicate-free `S` the chunks are pairwise disjoint; and for `|S| = 5`,
`n = 2` the chunk sizes are `[3, 2]`. -/
theorem distribute_partition (cats : List Category) (n : Nat) (hn : 1 ≤ n) :
    (distribute_categories cats n).length = n ∧
    (∀ c : Category,
        ((distribute_categories cats n).map (fun chunk => chunk.count c)).sum
          = cats.count c) ∧
    (cats.Nodup → ∀ w1 w2, w1 < n → w2 < n → w1 ≠ w2 → ∀ c : Category,
        c ∈ (distribute_categories cats n).getD w1 [] →
        c ∉ (distribute_categories cats n).getD w2 []) ∧
    (distribute_categories fiveCats 2).map (fun chunk => chunk.length) = [3, 2] := by
  have hn' : 0 < n := hn
  refine ⟨?_, ?_, ?_, by decide⟩
  · rw [distribute_categories_eq cats n hn']
    simp
  · intro c
    rw [distribute_categories_eq cats n hn', List.map_map]
    have := pairChunk_count_sum n hn' c cats.enum
    rw [List.enum_map_snd] at this
    exact this
  · intro hnd w1 w2 hw1 hw2 hne c hc1 hc2
    rw [distribute_categories_eq cats n hn'] at hc1 hc2
    rw [List.getD_eq_getElem?_getD, List.getElem?_map, List.getElem?_range hw1] at hc1
    rw [List.getD_eq_getElem?_getD, List.getElem?_map, List.getElem?_range hw2] at hc2
    simp only [Option.map_some', Option.getD_some] at hc1 hc2
    obtain ⟨i, hi, hiw⟩ := mem_pairChunk.1 hc1
    obtain ⟨j, hj, hjw⟩ := mem_pairChunk.1 hc2
    rw [List.mk_mem_enum_iff_getElem?] at hi hj
    have hilt : i < cats.length := by
      rcases List.getElem?_eq_some.1 hi with ⟨h, _⟩
      exact h
    have hij : i = j := List.getElem?_inj hilt hnd (hi.trans hj.symm)
    subst hij
    exact hne (hiw ▸ hjw)

/-- Witness for C4: at five categories and two workers the partition has
exactly two chunks. -/
theorem distribute_partition_witness :
    (distribute_categories fiveCats 2).length = 2 :=
  (distribute_partition fiveCats 2 (by decide)).1

/-- The summary totals built by `CrawlerOrchestrator._get_summary`
(orchestrator.py lines 192-206), counters only. -/
structure CrawlSummary where
  categories_crawled : Nat
  documents_extracted : Nat
  errors : Nat
deriving Repr, DecidableEq

/-- Embedding of `CrawlerOrchestrator._get_summary` (orchestrator.py lines
192-219): accumulate `total_categories`, `total_documents`, `total_errors`
over the workers' stats in order. -/
def get_summary (workers : List CrawlerStats) : CrawlSummary :=
  let totals := workers.foldl
    (fun (acc : Nat × Nat × Nat) s =>
      (acc.1 + s.categories_crawled, acc.2.1 + s.documents_extracted,
        acc.2.2 + s.errors))
    (0, 0, 0)
  ⟨totals.1, totals.2.1, totals.2.2⟩

theorem summary_fold_eq (workers : List CrawlerStats) :
    ∀ acc : Nat × Nat × Nat,
      workers.foldl
        (fun (acc : Nat × Nat × Nat) s =>
          (acc.1 + s.categories_crawled, acc.2.1 + s.documents_extracted,
            acc.2.2 + s.errors))
        acc
      = (acc.1 + (workers.map (fun s => s.categories_crawled)).sum,
         acc.2.1 + (workers.map (fun s => s.documents_extracted)).sum,
         acc.2.2 + (workers.map (fun s => s.errors)).sum) := by
  induction workers with
  | nil => intro acc; simp
  | cons w ws ih =>
      intro acc
      rw [List.foldl_cons, ih]
      simp only [List.map_cons, List.sum_cons, Prod.mk.injEq]
      refine ⟨by omega, by omega, by omega⟩

/-- **C5**: for every list of final per-worker `CrawlerStats`, the
orchestrator's summary reports `categories_crawled`, `documents_extracted`
and `errors` each equal to the exact element-wise sum of that counter over
all workers. -/
theorem aggregation_correctness (workers : List CrawlerStats) :
    (get_summary workers).categories_crawled
      = (workers.map (fun s => s.categories_crawled)).sum ∧
    (get_summary workers).documents_extracted
      = (workers.map (fun s => s.documents_extracted)).sum ∧
    (get_summary workers).errors = (workers.map (fun s => s.errors)).sum := by
  unfold get_summary
  rw [summary_fold_eq]
  simp

/-! ## Category tree discovery
Embeds the tree-walking JS of
`src/elsa_crawler/extractors/categories.py` (`collect_all_categories`) and of
`src/elsa_crawler/crawler/worker.py` (`_find_visible_subcategories`). -/

/-- A rendered `<li>` tree node: its direct `<a>` link (processed label and
`href`), if any, and its direct child `<li>` items (the content of its direct
child `<ul>`, empty when there is none). -/
inductive TreeNode where
  | node (link : Option (String × String)) (children : List TreeNode)
deriving Repr

/-- Characters of the `[^&]+` capture: take until `&`. -/
def takeUntilAmp : List Char → List Char
  | [] => []
  | c :: cs => if c = '&' then [] else c :: takeUntilAmp cs

/-- First position where `levelCode=` is followed by at least one non-`&`
character; the capture runs to the next `&` (models
`href.match(/levelCode=([^&]+)/)`, empty when there is no match). -/
def levelCodeChars : List Char → List Char
  | [] => []
  | c :: cs =>
    let rest := List.drop 9 cs
    if leadsWith (c :: cs) ("levelCode=".toList) && !(takeUntilAmp rest).isEmpty then
      takeUntilAmp rest
    else levelCodeChars cs

/-- The `levelCode` query parameter of a link target (`''` when absent). -/
def levelCode (href : String) : String :=
  String.mk (levelCodeChars href.toList)

/-- The record pushed into `results` by the `parseNode` JS of
`collect_all_categories` (categories.py lines 56-66). -/
structure RawCategory where
  id : String
  name : String
  path : List String
  href : String
  depth : Nat
  hasChildren : Bool
deriving Repr, DecidableEq

mutual

/-- Embedding of the recursive `parseNode` JS of `collect_all_categories`
(categories.py lines 31-77): skip (with the whole subtree) nodes without a
direct link or with an empty label; push the node itself only when its href
is non-empty and not an `emptyPage` sentinel, with id `levelCode || name`;
ALWAYS recurse into the children at `depth + 1`, even when the node itself
was not pushed. -/
def parseNode : TreeNode → List String → Nat → List RawCategory
  | TreeNode.node none _, _, _ => []
  | TreeNode.node (some (name, href)) children, path, depth =>
    if name = "" then []
    else
      (if href ≠ "" ∧ hasSubstr href "emptyPage" = false then
        [{ id := if levelCode href = "" then name else levelCode href
           name := name
           path := path ++ [name]
           href := href
           depth := depth
           hasChildren := !children.isEmpty }]
      else [])
      ++ parseForest children (path ++ [name]) (depth + 1)

/-- The `childLis.forEach(childLi => parseNode(childLi, ...))` loop. -/
def parseForest : List TreeNode → List String → Nat → List RawCategory
  | [], _, _ => []
  | t :: ts, path, depth => parseNode t path depth ++ parseForest ts path depth

end

mutual

theorem parseNode_no_sentinel (t : TreeNode) (path : List String) (depth : Nat) :
    ∀ e ∈ parseNode t path depth,
      e.href ≠ "" ∧ hasSubstr e.href "emptyPage" = false := by
  cases t with
  | node link children =>
      cases link with
      | none => intro e he; simp [parseNode] at he
      | some p =>
          obtain ⟨name, href⟩ := p
          intro e he
          simp only [parseNode] at he
          split at he
          · simp at he
          · rw [List.mem_append] at he
            rcases he with he | he
            · split at he
              · rename_i hok
                simp only [List.mem_singleton] at he
                subst he
                exact hok
              · simp at he
            · exact parseForest_no_sentinel children _ _ e he

theorem parseForest_no_sentinel (l : List TreeNode) (path : List String)
    (depth : Nat) :
    ∀ e ∈ parseForest l path depth,
      e.href ≠ "" ∧ hasSubstr e.href "emptyPage" = false := by
  cases l with
  | nil => intro e he; simp [parseForest] at he
  | cons t ts =>
      intro e he
      simp only [parseForest, List.mem_append] at he
      rcases he with he | he
      · exact parseNode_no_sentinel t path depth e he
      · exact parseForest_no_sentinel ts path depth e he

end

theorem mem_parseForest_of_mem {t : TreeNode} {l : List TreeNode}
    (ht : t ∈ l) (path : List String) (depth : Nat) {e : RawCategory}
    (he : e ∈ parseNode t path depth) : e ∈ parseForest l path depth := by
  induction l with
  | nil => cases ht
  | cons s ss ih =>
      simp only [parseForest, List.mem_append]
      rcases List.mem_cons.1 ht with rfl | hmem
      · exact Or.inl he
      · exact Or.inr (ih hmem)

/-- **C7**: during root category discovery, no returned entry has an empty or
`emptyPage`-sentinel link target; a sentinel node is itself excluded but its
subtree is still traversed (parsing the sentinel equals parsing its children
at `depth + 1`); hence a valid child of a sentinel node appears in the result
with its correct depth (and the usual id rule). -/
theorem sentinel_excluded_subtree_traversed (name href : String)
    (children : List TreeNode) (path : List String) (depth : Nat)
    (hname : name ≠ "") (hsent : hasSubstr href "emptyPage" = true) :
    (∀ (t : TreeNode) (p : List String) (d : Nat), ∀ e ∈ parseNode t p d,
        e.href ≠ "" ∧ hasSubstr e.href "emptyPage" = false) ∧
    parseNode (TreeNode.node (some (name, href)) children) path depth
      = parseForest children (path ++ [name]) (depth + 1) ∧
    (∀ (cname chref : String) (cchildren : List TreeNode),
        TreeNode.node (some (cname, chref)) cchildren ∈ children →
        cname ≠ "" → chref ≠ "" → hasSubstr chref "emptyPage" = false →
        ({ id := if levelCode chref = "" then cname else levelCode chref
           name := cname
           path := (path ++ [name]) ++ [cname]
           href := chref
           depth := depth + 1
           hasChildren := !cchildren.isEmpty } : RawCategory)
          ∈ parseNode (TreeNode.node (some (name, href)) children) path depth) := by
  have hunfold : parseNode (TreeNode.node (some (name, href)) children) path depth
      = parseForest children (path ++ [name]) (depth + 1) := by
    simp only [parseNode, if_neg hname]
    rw [if_neg (by simp [hsent])]
    simp
  refine ⟨parseNode_no_sentinel, hunfold, ?_⟩
  intro cname chref cchildren hmem hcname hchref hcsent
  rw [hunfold]
  refine mem_parseForest_of_mem hmem _ _ ?_
  simp only [parseNode, if_neg hcname]
  rw [if_pos ⟨hchref, hcsent⟩]
  simp

/-- A sentinel (placeholder) navigation node with one valid child. -/
def sentinelChild : TreeNode :=
  TreeNode.node (some ("Bremsanlage", "vw.portal?levelCode=D.4&x=1")) []

/-- The sentinel parent whose link target is an `emptyPage` placeholder. -/
def sentinelParent : TreeNode :=
  TreeNode.node (some ("Platzhalter", "vw.emptyPage.do")) [sentinelChild]

/-- Witness for C7: the valid child of a concrete sentinel node appears in
the parse result at depth 1 with id taken from its `levelCode`. -/
theorem sentinel_excluded_subtree_traversed_witness :
    ({ id := if levelCode "vw.portal?levelCode=D.4&x=1" = ""
              then "Bremsanlage" else levelCode "vw.portal?levelCode=D.4&x=1"
       name := "Bremsanlage"
       path := (([] : List String) ++ ["Platzhalter"]) ++ ["Bremsanlage"]
       href := "vw.portal?levelCode=D.4&x=1"
       depth := 0 + 1
       hasChildren := !(([] : List TreeNode)).isEmpty } : RawCategory)
      ∈ parseNode sentinelParent [] 0 :=
  (sentinel_excluded_subtree_traversed "Platzhalter" "vw.emptyPage.do"
      [sentinelChild] [] 0 (by decide) (by decide)).2.2
    "Bremsanlage" "vw.portal?levelCode=D.4&x=1" [] (by simp [sentinelChild])
    (by decide) (by decide) (by decide)

/-- Extraction of one child `Category` per direct child list item, as done by
the JS of `CrawlerWorker._find_visible_subcategories` (worker.py lines
373-418) followed by the `Category(...)` construction (lines 443-454): skip
items without a link or with an empty label, skip `emptyPage` links, skip
items whose href has NO `levelCode` (`if (!levelCode) return`), otherwise
build the Category with `id = levelCode`, the parent's id and `depth + 1`. -/
def childExtract (parent : Category) : TreeNode → Option Category
  | TreeNode.node none _ => none
  | TreeNode.node (some (name, href)) cchildren =>
    if name = "" then none
    else if hasSubstr href "emptyPage" = true then none
    else if levelCode href = "" then none
    else some ⟨levelCode href, name, some href, some parent.id,
      parent.depth + 1, !cchildren.isEmpty⟩

/-- The processed label of a node's direct link, if any. -/
def linkLabel : TreeNode → Option String
  | TreeNode.node none _ => none
  | TreeNode.node (some (name, _)) _ => some name

/-- The direct child list items of a node. -/
def nodeChildren : TreeNode → List TreeNode
  | TreeNode.node _ cs => cs

mutual

/-- A node and its descendant `<li>` items in document order. -/
def selfAndDescendants : TreeNode → List TreeNode
  | TreeNode.node l cs => TreeNode.node l cs :: allLis cs

/-- `document.querySelectorAll('li')` over a forest, in document order. -/
def allLis : List TreeNode → List TreeNode
  | [] => []
  | t :: ts => selfAndDescendants t ++ allLis ts

end

/-- Embedding of `CrawlerWorker._find_visible_subcategories` (worker.py lines
314-456): locate the first `<li>` whose direct link label equals the parent's
name exactly, then extract one `Category` per direct child list item; the
empty list results when the parent is not found or it has no child list. -/
def find_visible_subcategories (doc : List TreeNode) (parent : Category) :
    List Category :=
  match (allLis doc).find? (fun li => linkLabel li == some parent.name) with
  | none => []
  | some li => (nodeChildren li).filterMap (childExtract parent)

/-- A child list item with a display name but no `levelCode` in its target. -/
def noCodeChild : TreeNode :=
  TreeNode.node (some ("Bremsen", "vw.portal?chapter=7")) []

/-- A parent node whose only child is `noCodeChild`. -/
def fahrwerkNode : TreeNode :=
  TreeNode.node (some ("Fahrwerk", "vw.portal?levelCode=D")) [noCodeChild]

/-- The `Category` under which children are searched. -/
def fahrwerkCat : Category :=
  ⟨"D", "Fahrwerk", some "vw.portal?levelCode=D", none, 0, true⟩

/-- **C8** counterexample: a non-sentinel child (`Bremsen`) with a name but
no `levelCode` in its link target is NOT returned by child-category
discovery (`_find_visible_subcategories` skips it), although root discovery
(`parseNode`) would include the same node with its display name as id — the
two identifier rules differ, refuting the claim. -/
theorem child_id_fallback_counterexample :
    find_visible_subcategories [fahrwerkNode] fahrwerkCat = [] ∧
    levelCode "vw.portal?chapter=7" = "" ∧
    childExtract fahrwerkCat noCodeChild = none ∧
    (parseNode noCodeChild ["Fahrwerk"] 1).map (fun e => e.id) = ["Bremsen"] := by
  decide

/-- **C8** (amended): child-category discovery locates the parent by exact
link-label match and extracts one Category per direct child list item, and it
derives each child's id from the `levelCode` query parameter of its link
target — but unlike root discovery it does NOT fall back to the display name:
a non-sentinel child with a name but no `levelCode` is skipped entirely,
while root discovery (`parseNode`) lists the same node with its display name
as id.  When a `levelCode` is present, both rules agree on the id. -/
theorem child_discovery_id_rule (parent : Category) (name href : String)
    (cchildren : List TreeNode) (hname : name ≠ "")
    (hsent : hasSubstr href "emptyPage" = false) :
    (levelCode href = "" →
        childExtract parent (TreeNode.node (some (name, href)) cchildren)
          = none) ∧
    (levelCode href ≠ "" →
        childExtract parent (TreeNode.node (some (name, href)) cchildren)
          = some ⟨levelCode href, name, some href, some parent.id,
              parent.depth + 1, !cchildren.isEmpty⟩) ∧
    (href ≠ "" → ∀ (path : List String) (depth : Nat),
        (parseNode (TreeNode.node (some (name, href)) cchildren) path depth).map
            (fun e => e.id)
          = (if levelCode href = "" then name else levelCode href)
              :: (parseForest cchildren (path ++ [name]) (depth + 1)).map
                  (fun e => e.id)) := by
  refine ⟨?_, ?_, ?_⟩
  · intro hcode
    simp [childExtract, hname, hsent, hcode]
  · intro hcode
    simp [childExtract, hname, hsent, hcode]
  · intro hhref path depth
    simp only [parseNode, if_neg hname]
    rw [if_pos ⟨hhref, hsent⟩]
    simp

/-- Witness for C8 (amended): at the concrete `levelCode`-free child the
worker-side extraction yields nothing. -/
theorem child_discovery_id_rule_witness :
    childExtract fahrwerkCat
        (TreeNode.node (some ("Bremsen", "vw.portal?chapter=7")) []) = none :=
  (child_discovery_id_rule fahrwerkCat "Bremsen" "vw.portal?chapter=7" []
      (by decide) (by decide)).1 (by decide)

/-! ## Orchestrator cleanup and initialization
Embeds `CrawlerOrchestrator.cleanup` and the worker-spawning part of
`CrawlerOrchestrator.initialize` (orchestrator.py). -/

/-- The resources owned by the orchestrator. -/
inductive Resource where
  | context (i : Nat)
  | browser
  | kafka
  | redis
deriving Repr, DecidableEq

/-- Which close/disconnect calls raise. -/
structure CleanupEnv where
  contextCloseFails : Nat → Bool
  browserCloseFails : Bool
  kafkaCloseFails : Bool
  redisCloseFails : Bool

/-- Whether closing the given resource raises in this environment. -/
def closeFails (env : CleanupEnv) : Resource → Bool
  | Resource.context i => env.contextCloseFails i
  | Resource.browser => env.browserCloseFails
  | Resource.kafka => env.kafkaCloseFails
  | Resource.redis => env.redisCloseFails

/-- The order in which `cleanup` (orchestrator.py lines 221-237) issues its
close calls: the contexts in list order (the list was appended to in
worker-id order during `initialize`), then the browser, the Kafka producer
and the Redis connection — each of the latter only if present. -/
def cleanupOrder (numContexts : Nat) (hasBrowser hasKafka hasRedis : Bool) :
    List Resource :=
  (List.range numContexts).map Resource.context
    ++ (if hasBrowser then [Resource.browser] else [])
    ++ (if hasKafka then [Resource.kafka] else [])
    ++ (if hasRedis then [Resource.redis] else [])

/-- Sequential closing with no exception handling, as in the body of
`cleanup`: each close is awaited in turn and a raising close propagates,
so the resources after it are never attempted.  Returns the successfully
closed resources and whether an exception escaped. -/
def closeAll (env : CleanupEnv) : List Resource → List Resource × Bool
  | [] => ([], false)
  | r :: rs =>
    if closeFails env r then ([], true)
    else
      let rest := closeAll env rs
      (r :: rest.1, rest.2)

/-- Embedding of `CrawlerOrchestrator.cleanup` (orchestrator.py lines
221-237). -/
def cleanup (env : CleanupEnv) (numContexts : Nat)
    (hasBrowser hasKafka hasRedis : Bool) : List Resource × Bool :=
  closeAll env (cleanupOrder numContexts hasBrowser hasKafka hasRedis)

/-- The order in which `initialize` acquires the same resources
(orchestrator.py lines 55-128): Redis, Kafka, browser, then one context per
worker in worker-id order. -/
def acquisitionOrder (numContexts : Nat) (hasBrowser hasKafka hasRedis : Bool) :
    List Resource :=
  (if hasRedis then [Resource.redis] else [])
    ++ (if hasKafka then [Resource.kafka] else [])
    ++ (if hasBrowser then [Resource.browser] else [])
    ++ (List.range numContexts).map Resource.context

theorem closeAll_eq (env : CleanupEnv) : ∀ l : List Resource,
    closeAll env l
      = (l.takeWhile (fun r => !closeFails env r), l.any (closeFails env)) := by
  intro l
  induction l with
  | nil => rfl
  | cons r rs ih =>
      simp only [closeAll, List.takeWhile_cons, List.any_cons]
      by_cases h : closeFails env r
      · simp [h]
      · simp only [h, Bool.false_eq_true, if_false, ih, Bool.not_false, if_true,
          Bool.false_or]

/-- An environment in which closing the first context raises and every other
close succeeds. -/
def ctxFailEnv : CleanupEnv :=
  { contextCloseFails := fun i => i == 0
    browserCloseFails := false
    kafkaCloseFails := false
    redisCloseFails := false }

/-- An environment in which every close succeeds. -/
def allOkEnv : CleanupEnv :=
  { contextCloseFails := fun _ => false
    browserCloseFails := false
    kafkaCloseFails := false
    redisCloseFails := false }

/-- **C9** counterexample: (a) with one context whose `close()` raises,
`cleanup` closes nothing at all — the browser, Kafka and Redis resources are
never closed and the exception escapes, so close failures are NOT swallowed;
(b) even with no failures, the contexts themselves are closed in acquisition
order, so with two contexts the close sequence is not the reverse of the
acquisition sequence. -/
theorem cleanup_counterexample :
    (cleanup ctxFailEnv 1 true true true).1 = [] ∧
    (cleanup ctxFailEnv 1 true true true).2 = true ∧
    Resource.redis ∉ (cleanup ctxFailEnv 1 true true true).1 ∧
    Resource.browser ∉ (cleanup ctxFailEnv 1 true true true).1 ∧
    ¬ (cleanup allOkEnv 2 true true true).1
        = (acquisitionOrder 2 true true true).reverse := by
  decide

/-- **C9** (amended): `cleanup` issues its close calls in the fixed order
contexts (in acquisition order among themselves), then browser, Kafka,
Redis — the resource groups in reverse-acquisition order; it does NOT
swallow close failures: the successfully closed resources are exactly the
longest prefix of that order with no failing close (so everything after the
first failure, if any, is left unclosed and the exception propagates), an
exception escapes iff some issued close fails, and when no close fails every
resource is closed. -/
theorem cleanup_behavior (env : CleanupEnv) (n : Nat) (b k r : Bool) :
    cleanup env n b k r
      = ((cleanupOrder n b k r).takeWhile (fun res => !closeFails env res),
         (cleanupOrder n b k r).any (closeFails env)) ∧
    ((∀ res ∈ cleanupOrder n b k r, closeFails env res = false) →
        (cleanup env n b k r).1 = cleanupOrder n b k r ∧
        (cleanup env n b k r).2 = false) ∧
    (∀ res ∈ (cleanup env n b k r).1, closeFails env res = false) := by
  refine ⟨closeAll_eq env _, ?_, ?_⟩
  · intro hok
    unfold cleanup
    rw [closeAll_eq]
    constructor
    · exact List.takeWhile_eq_self_iff.2 (by simpa using hok)
    · rw [List.any_eq_false]
      intro res hres
      simp [hok res hres]
  · intro res hres
    unfold cleanup at hres
    rw [closeAll_eq] at hres
    have := List.mem_takeWhile_imp hres
    simpa using this

/-- Witness for C9 (amended): with no failing close and two contexts, every
resource is closed and no exception escapes. -/
theorem cleanup_behavior_witness :
    (cleanup allOkEnv 2 true true true).1 = cleanupOrder 2 true true true ∧
    (cleanup allOkEnv 2 true true true).2 = false :=
  (cleanup_behavior allOkEnv 2 true true true).2.1 (by decide)

/-- The subset of `ElsaConfig` (config.py) relevant to worker spawning. -/
structure ElsaConfigModel where
  max_workers : Nat
deriving Repr, DecidableEq

/-- The observable result of `initialize`'s worker-spawning phase. -/
structure OrchestratorSetup where
  config : ElsaConfigModel
  workers : List Nat
  contexts : List Nat
deriving Repr, DecidableEq

/-- Embedding of the worker-spawning part of `CrawlerOrchestrator.initialize`
(orchestrator.py lines 75-130): `self.config.max_workers = 1` ("Enforce
single worker for current test phase") executes before the
`for worker_id in range(self.config.max_workers)` loop that creates one
browsing context and one worker per iteration. -/
def initialize_workers (config : ElsaConfigModel) : OrchestratorSetup :=
  let config := { config with max_workers := 1 }
  { config := config
    workers := List.range config.max_workers
    contexts := List.range config.max_workers }

/-- **C10**: after `initialize` completes, the orchestrator has exactly one
worker and one browsing context regardless of the configured worker count
(which the start-crawl request wrote into the config): `initialize`
overwrites `config.max_workers` with 1 before spawning, so every configured
`N > 1` is silently reduced to 1 and the setup is identical for every
requested count. -/
theorem initialize_single_worker (config : ElsaConfigModel) :
    (initialize_workers config).workers.length = 1 ∧
    (initialize_workers config).contexts.length = 1 ∧
    (initialize_workers config).config.max_workers = 1 ∧
    initialize_workers config = initialize_workers ⟨1⟩ := by
  simp [initialize_workers]

end ElsaCrawler
